import Mathlib

/-!
Shallow embedding of `src/webthing_client/stomp.py` (class `StompWebsocket`),
the resilient STOMP-over-websocket subscription transport of
`predict-idlab/webthing-client-python`.

Modelling conventions:
* Callbacks are identified by `Nat` ids; invoking a callback is recorded as a
  `(callback, body)` pair in an output trace instead of running Python code.
* Python `dict`s (`self._subscriptions`, `self._backlog_subscriptions`) are
  insertion-ordered association lists; the helper operations below mirror the
  exact `dict` operations the source uses (`setdefault(...).append`, `update`,
  `in`, `[]`).
* Outbound websocket frames (`self._ws.send(...)`) are recorded in an output
  trace of `OutFrame`s.
* Frame parsing by the external `stomper` library is not repository code; the
  handler `onMessageRaw` takes the parsed frame as an oracle argument and only
  models the repository's own branch structure (the heartbeat strip-check, the
  `cmd` dispatch, the header lookups).
-/

namespace Stomp

/-- One outbound frame written to the websocket by `StompWebsocket`. -/
inductive OutFrame where
  /-- The CONNECT frame sent in `_on_open`. -/
  | connect
  /-- `stomper.subscribe(destination, "sub-<id>", ack="auto")` sent in `_subscribe`. -/
  | subscribeF (destination : String) (id : Nat)
  /-- `stomper.send(destination, message)` sent in `send`. -/
  | sendF (destination : String) (body : String)
deriving Repr, DecidableEq

/-- A parsed STOMP frame as returned by `stomper.Frame.unpack`:
command, header map, body. -/
structure Frame where
  cmd : String
  headers : List (String × String)
  body : String
deriving Repr, DecidableEq

/-- The error raised by `message['headers']['destination']` when the header
is absent (Python `KeyError`). -/
inductive MsgError where
  | keyError (key : String)
deriving Repr, DecidableEq

/-- The mutable state of a `StompWebsocket` instance (fields set in
`__init__` and mutated by the handlers).  The print-only fields
`_reconnect_error`, `_reconnect_status_code`, `_reconnect_message` are not
modelled: nothing in the code reads them except log statements. -/
structure StompState where
  connected : Bool
  backlog_subscriptions : List (String × List Nat)
  subscriptions : List (String × List Nat)
  next_sub_id : Nat
  reconnect : Bool
  reconnect_timeout_ms : Nat
deriving Repr, DecidableEq

/-- The state established by `__init__(ws_uri, reconnect_timeout_ms, verbose)`. -/
def initialState (reconnect_timeout_ms : Nat) : StompState :=
  { connected := false
    backlog_subscriptions := []
    subscriptions := []
    next_sub_id := 0
    reconnect := false
    reconnect_timeout_ms := reconnect_timeout_ms }

/-- Python `d[k]` / `k in d` as an option-valued lookup on an
insertion-ordered association list. -/
def alGet {α : Type} : List (String × α) → String → Option α
  | [], _ => none
  | (k, v) :: rest, key => if k = key then some v else alGet rest key

/-- Python `d.setdefault(k, []).append(c)`: append `c` to the list stored at
`k`, inserting a fresh entry at the end when `k` is absent. -/
def alSetdefaultAppend : List (String × List Nat) → String → Nat → List (String × List Nat)
  | [], k, c => [(k, [c])]
  | (k', v) :: rest, k, c =>
      if k' = k then (k', v ++ [c]) :: rest
      else (k', v) :: alSetdefaultAppend rest k c

/-- Python `m.update(n)`: replace the value of every key of `m` also present
in `n` (keeping `m`'s insertion position) and append `n`'s remaining entries
in order. -/
def alUpdate (m n : List (String × List Nat)) : List (String × List Nat) :=
  m.map (fun kv => (kv.1, (alGet n kv.1).getD kv.2)) ++
    n.filter (fun kv => (alGet m kv.1).isNone)

/-- `StompWebsocket._subscribe(destination, callback)`: when the destination
has no callbacks yet, send a SUBSCRIBE frame carrying `sub-<next_sub_id>` and
increment the counter; in every case append the callback to the
destination's list. -/
def subscribeWire (s : StompState) (dest : String) (cb : Nat) :
    StompState × List OutFrame :=
  if ((alGet s.subscriptions dest).getD []).length = 0 then
    ({ s with subscriptions := alSetdefaultAppend s.subscriptions dest cb
              next_sub_id := s.next_sub_id + 1 },
     [OutFrame.subscribeF dest s.next_sub_id])
  else
    ({ s with subscriptions := alSetdefaultAppend s.subscriptions dest cb }, [])

/-- `StompWebsocket.subscribe(destination, callback)`: push to the backlog
while not connected, otherwise subscribe on the wire. -/
def subscribe (s : StompState) (dest : String) (cb : Nat) :
    StompState × List OutFrame :=
  if s.connected = false then
    ({ s with backlog_subscriptions := alSetdefaultAppend s.backlog_subscriptions dest cb }, [])
  else subscribeWire s dest cb

/-- The inner `for callback in callbacks` loop of `_connected_message`,
feeding one destination's backlog callbacks to `_subscribe` in order. -/
def subscribeAllCbs (s : StompState) (dest : String) :
    List Nat → StompState × List OutFrame
  | [] => (s, [])
  | c :: rest =>
      let r1 := subscribeWire s dest c
      let r2 := subscribeAllCbs r1.1 dest rest
      (r2.1, r1.2 ++ r2.2)

/-- The outer `for destination, callbacks in self._backlog_subscriptions.items()`
loop of `_connected_message`. -/
def subscribeBacklog (s : StompState) :
    List (String × List Nat) → StompState × List OutFrame
  | [] => (s, [])
  | (d, cbs) :: rest =>
      let r1 := subscribeAllCbs s d cbs
      let r2 := subscribeBacklog r1.1 rest
      (r2.1, r1.2 ++ r2.2)

/-- `StompWebsocket._connected_message()`: set connected, replay the whole
backlog through `_subscribe`, then clear the backlog. -/
def connectedMessage (s : StompState) : StompState × List OutFrame :=
  let r := subscribeBacklog { s with connected := true } s.backlog_subscriptions
  ({ r.1 with backlog_subscriptions := [] }, r.2)

/-- The non-heartbeat part of `StompWebsocket._on_message` acting on the
parsed frame: a CONNECTED frame runs `_connected_message` and clears the
reconnect flag; a MESSAGE frame looks up `message['headers']['destination']`
(raising `KeyError` when absent) and invokes every callback registered for
that destination with the body; any other command falls through.  The
source's `destination != None` guard is vacuous for a present header and is
subsumed by the successful lookup. -/
def onFrame (s : StompState) (f : Frame) :
    Except MsgError (StompState × List OutFrame × List (Nat × String)) :=
  if f.cmd = "CONNECTED" then
    let r := connectedMessage s
    Except.ok ({ r.1 with reconnect := false }, r.2, [])
  else if f.cmd = "MESSAGE" then
    match alGet f.headers "destination" with
    | none => Except.error (MsgError.keyError "destination")
    | some dest =>
        match alGet s.subscriptions dest with
        | some cbs => Except.ok (s, [], cbs.map (fun c => (c, f.body)))
        | none => Except.ok (s, [], [])
  else Except.ok (s, [], [])

/-- The character set of the literal `" \n"` passed to `str.strip` in
`_on_message`. -/
def stripSet : List Char := [' ', '\n']

/-- Python `s.strip(chars)` on the character list of a string: drop leading
and trailing characters belonging to `chars`. -/
def pyStripList (chars : List Char) (cs : List Char) : List Char :=
  ((cs.dropWhile (fun c => chars.contains c)).reverse.dropWhile
    (fun c => chars.contains c)).reverse

/-- Python `msg.strip(" \n")`. -/
def pyStrip (msg : String) : String := ⟨pyStripList stripSet msg.data⟩

/-- The heartbeat test of `_on_message`: `stomp_message.strip(" \n") == ""`. -/
def isHeartbeatMsg (msg : String) : Bool := (pyStrip msg).data.isEmpty

/-- `_on_message` calls `stomper.Frame.unpack` (parses the payload as a
protocol frame) exactly when the heartbeat strip-check fails. -/
def invokesFrameParser (msg : String) : Bool := ! isHeartbeatMsg msg

/-- `StompWebsocket._on_message(ws, stomp_message)`: the heartbeat branch
returns without touching anything; otherwise the payload is parsed by the
external `stomper` library (supplied here as the oracle `parsed`) and handled
by `onFrame`. -/
def onMessageRaw (s : StompState) (msg : String) (parsed : Frame) :
    Except MsgError (StompState × List OutFrame × List (Nat × String)) :=
  if isHeartbeatMsg msg then Except.ok (s, [], []) else onFrame s parsed

/-- `StompWebsocket._on_close(ws, status_code, message)`: drop to
disconnected, fold the live subscriptions into the backlog, clear the live
map, reset the id counter; then reconnect — immediately (delay 0) on the
first close, after `reconnect_timeout_ms` on every consecutive later close.
The returned `Nat` is the sleep in milliseconds before `_init_websocket`. -/
def onClose (s : StompState) : StompState × Nat :=
  let s1 := { s with connected := false
                     backlog_subscriptions := alUpdate s.backlog_subscriptions s.subscriptions
                     subscriptions := []
                     next_sub_id := 0 }
  if s1.reconnect = false then ({ s1 with reconnect := true }, 0)
  else (s1, s.reconnect_timeout_ms)

/-- `StompWebsocket.send(destination, message)`: unconditionally hand
`stomper.send(destination, message)` to the websocket — the source performs
no connection-state check before `self._ws.send(...)`. -/
def send (s : StompState) (dest : String) (body : String) :
    StompState × List OutFrame :=
  (s, [OutFrame.sendF dest body])

/-- The events driving a `StompWebsocket`: the public API calls and the
websocket handler callbacks. -/
inductive Event where
  | sub (dest : String) (cb : Nat)
  | raw (msg : String) (parsed : Frame)
  | openEv
  | errorEv
  | close
  | sendEv (dest : String) (body : String)
deriving Repr, DecidableEq

/-- One atomic handler execution: resulting state, outbound frames written to
the websocket, callback invocations performed.  `_on_open` sends the CONNECT
frame; `_on_error` only stores a value used for logging; a `KeyError`
escaping `_on_message` leaves the state unchanged (the lookup precedes every
mutation). -/
def step (s : StompState) (e : Event) :
    StompState × List OutFrame × List (Nat × String) :=
  match e with
  | Event.sub d c => let r := subscribe s d c; (r.1, r.2, [])
  | Event.raw msg parsed =>
      match onMessageRaw s msg parsed with
      | Except.ok r => r
      | Except.error _ => (s, [], [])
  | Event.openEv => (s, [OutFrame.connect], [])
  | Event.errorEv => (s, [], [])
  | Event.close => ((onClose s).1, [], [])
  | Event.sendEv d b => let r := send s d b; (r.1, r.2, [])

/-- States reachable from a freshly constructed `StompWebsocket` by handler
executions. -/
inductive Reachable : StompState → Prop where
  | init (timeout : Nat) : Reachable (initialState timeout)
  | next (s : StompState) (e : Event) : Reachable s → Reachable (step s e).1

/-- The callback list stored for a topic, empty when the topic is absent
(Python `d.get(t, [])`). -/
def cbGet (m : List (String × List Nat)) (t : String) : List Nat :=
  (alGet m t).getD []

/-- All callbacks currently registered for a topic, backlog entry first
(at most one of the two is nonempty in reachable states). -/
def callbacksOf (s : StompState) (t : String) : List Nat :=
  cbGet s.backlog_subscriptions t ++ cbGet s.subscriptions t

/-- The wire subscription ids carried by the SUBSCRIBE frames of a trace. -/
def subIds (fs : List OutFrame) : List Nat :=
  fs.filterMap (fun f => match f with
    | OutFrame.subscribeF _ i => some i
    | _ => none)

/-- How many SUBSCRIBE frames of a trace target a given destination. -/
def countSubFor (dest : String) (fs : List OutFrame) : Nat :=
  (fs.filter (fun f => match f with
    | OutFrame.subscribeF d _ => d == dest
    | _ => false)).length

/-- A sequence of `subscribe(dest, cb)` calls for the callbacks of a list,
in order (the frames produced are empty while disconnected). -/
def subscribeSeq (s : StompState) (dest : String) : List Nat → StompState
  | [] => s
  | c :: rest => subscribeSeq (subscribe s dest c).1 dest rest

/-- Keys of an association list are pairwise distinct (guaranteed by Python
`dict`, an invariant on the association-list model). -/
def keysND (m : List (String × List Nat)) : Prop := (m.map Prod.fst).Nodup

/-- The state invariant of `StompWebsocket`: the live subscription map is
empty while disconnected, the backlog is empty while connected, and both
maps have distinct keys. -/
def Inv (s : StompState) : Prop :=
  (s.connected = false → s.subscriptions = []) ∧
  (s.connected = true → s.backlog_subscriptions = []) ∧
  keysND s.subscriptions ∧ keysND s.backlog_subscriptions

/-- The dispatch loop of `_on_message` for a MESSAGE frame
(`for callback in callbacks: callback(message['body'])`) refined with a
raising oracle: `beh c body = true` means callback `c` raises on `body`.
The loop has no per-callback exception handling, so a raise aborts it.
Returns the callbacks actually invoked (in order) and whether an exception
escaped the loop. -/
def dispatchLoop (beh : Nat → String → Bool) : List Nat → String → List Nat × Bool
  | [], _ => ([], false)
  | c :: rest, body =>
      if beh c body then ([c], true)
      else
        let r := dispatchLoop beh rest body
        (c :: r.1, r.2)

/-! ### Association-list lemmas -/

theorem alGet_nil {α : Type} (k : String) : alGet ([] : List (String × α)) k = none := rfl

theorem alGet_setdefault_self (m : List (String × List Nat)) (k : String) (c : Nat) :
    alGet (alSetdefaultAppend m k c) k = some ((alGet m k).getD [] ++ [c]) := by
  induction m with
  | nil => simp [alSetdefaultAppend, alGet]
  | cons kv rest ih =>
    obtain ⟨k', v⟩ := kv
    by_cases h : k' = k
    · subst h
      simp [alSetdefaultAppend, alGet]
    · simp [alSetdefaultAppend, alGet, h, ih]

theorem alGet_setdefault_other (m : List (String × List Nat)) (k k' : String) (c : Nat)
    (h : k' ≠ k) : alGet (alSetdefaultAppend m k c) k' = alGet m k' := by
  induction m with
  | nil => simp [alSetdefaultAppend, alGet, Ne.symm h]
  | cons kv rest ih =>
    obtain ⟨k0, v⟩ := kv
    by_cases h0 : k0 = k
    · subst h0
      simp [alSetdefaultAppend, alGet, Ne.symm h]
    · by_cases h1 : k0 = k'
      · subst h1
        simp [alSetdefaultAppend, alGet, h0]
      · simp [alSetdefaultAppend, alGet, h0, h1, ih]

theorem alGet_eq_none_iff {α : Type} (m : List (String × α)) (k : String) :
    alGet m k = none ↔ k ∉ m.map Prod.fst := by
  induction m with
  | nil => simp [alGet]
  | cons kv rest ih =>
    obtain ⟨k0, v⟩ := kv
    by_cases h : k0 = k
    · subst h
      simp [alGet]
    · simp [alGet, h, ih, Ne.symm h]

theorem keys_setdefault (m : List (String × List Nat)) (k : String) (c : Nat) :
    (alSetdefaultAppend m k c).map Prod.fst =
      if k ∈ m.map Prod.fst then m.map Prod.fst else m.map Prod.fst ++ [k] := by
  induction m with
  | nil => simp [alSetdefaultAppend]
  | cons kv rest ih =>
    obtain ⟨k0, v⟩ := kv
    by_cases h0 : k0 = k
    · subst h0
      simp [alSetdefaultAppend]
    · simp only [alSetdefaultAppend, if_neg h0, List.map_cons, ih]
      by_cases hm : k ∈ rest.map Prod.fst
      · simp [hm, Ne.symm h0]
      · simp [hm, Ne.symm h0]

theorem nodup_keys_setdefault (m : List (String × List Nat)) (k : String) (c : Nat)
    (h : (m.map Prod.fst).Nodup) :
    ((alSetdefaultAppend m k c).map Prod.fst).Nodup := by
  rw [keys_setdefault]
  by_cases hm : k ∈ m.map Prod.fst
  · simpa [hm] using h
  · simp only [if_neg hm, List.nodup_append]
    refine ⟨h, List.nodup_singleton k, ?_⟩
    intro a ha hk
    simp only [List.mem_singleton] at hk
    subst hk
    exact hm ha

theorem alSetdefault_of_absent (m : List (String × List Nat)) (k : String) (c : Nat)
    (h : alGet m k = none) : alSetdefaultAppend m k c = m ++ [(k, [c])] := by
  induction m with
  | nil => simp [alSetdefaultAppend]
  | cons kv rest ih =>
    obtain ⟨k0, v⟩ := kv
    by_cases h0 : k0 = k
    · subst h0
      simp [alGet] at h
    · simp only [alGet, if_neg h0] at h
      simp [alSetdefaultAppend, h0, ih h]

theorem alGet_append_right {α : Type} (m n : List (String × α)) (k : String)
    (h : alGet m k = none) : alGet (m ++ n) k = alGet n k := by
  induction m with
  | nil => simp
  | cons kv rest ih =>
    obtain ⟨k0, v⟩ := kv
    by_cases h0 : k0 = k
    · subst h0
      simp [alGet] at h
    · simp only [alGet, if_neg h0] at h
      simp [alGet, h0, ih h]

theorem alGet_append_left {α : Type} (m n : List (String × α)) (k : String) (v : α)
    (h : alGet m k = some v) : alGet (m ++ n) k = some v := by
  induction m with
  | nil => simp [alGet] at h
  | cons kv rest ih =>
    obtain ⟨k0, v0⟩ := kv
    by_cases h0 : k0 = k
    · subst h0
      simp [alGet] at h
      simp [alGet, h]
    · simp only [alGet, if_neg h0] at h
      simp [alGet, h0, ih h]

theorem alUpdate_nil_left (n : List (String × List Nat)) : alUpdate [] n = n := by
  simp [alUpdate, alGet]

theorem alUpdate_nil_right (m : List (String × List Nat)) : alUpdate m [] = m := by
  simp [alUpdate, alGet]

theorem cbGet_cons (d : String) (l : List Nat) (rest : List (String × List Nat)) (t : String) :
    cbGet ((d, l) :: rest) t = if d = t then l else cbGet rest t := by
  by_cases h : d = t
  · simp [cbGet, alGet, h]
  · simp [cbGet, alGet, h]

theorem cbGet_setdefault (m : List (String × List Nat)) (k t : String) (c : Nat) :
    cbGet (alSetdefaultAppend m k c) t =
      if t = k then cbGet m t ++ [c] else cbGet m t := by
  by_cases h : t = k
  · subst h
    simp [cbGet, alGet_setdefault_self]
  · simp [cbGet, alGet_setdefault_other m k t c h, h]

/-! ### Lemmas about `_subscribe` and the `_connected_message` replay loops -/

theorem subscribeWire_subs (s : StompState) (d : String) (c : Nat) :
    (subscribeWire s d c).1.subscriptions = alSetdefaultAppend s.subscriptions d c := by
  unfold subscribeWire
  split <;> rfl

theorem subscribeWire_frozen (s : StompState) (d : String) (c : Nat) :
    (subscribeWire s d c).1.connected = s.connected ∧
    (subscribeWire s d c).1.backlog_subscriptions = s.backlog_subscriptions ∧
    (subscribeWire s d c).1.reconnect = s.reconnect ∧
    (subscribeWire s d c).1.reconnect_timeout_ms = s.reconnect_timeout_ms := by
  unfold subscribeWire
  split <;> exact ⟨rfl, rfl, rfl, rfl⟩

theorem subscribeAllCbs_frozen (cbs : List Nat) (s : StompState) (d : String) :
    (subscribeAllCbs s d cbs).1.connected = s.connected ∧
    (subscribeAllCbs s d cbs).1.backlog_subscriptions = s.backlog_subscriptions ∧
    (subscribeAllCbs s d cbs).1.reconnect = s.reconnect ∧
    (subscribeAllCbs s d cbs).1.reconnect_timeout_ms = s.reconnect_timeout_ms := by
  induction cbs generalizing s with
  | nil => exact ⟨rfl, rfl, rfl, rfl⟩
  | cons c rest ih =>
    have hw := subscribeWire_frozen s d c
    have hr := ih (subscribeWire s d c).1
    simp only [subscribeAllCbs]
    exact ⟨hr.1.trans hw.1, hr.2.1.trans hw.2.1, hr.2.2.1.trans hw.2.2.1,
      hr.2.2.2.trans hw.2.2.2⟩

theorem subscribeBacklog_frozen (bl : List (String × List Nat)) (s : StompState) :
    (subscribeBacklog s bl).1.connected = s.connected ∧
    (subscribeBacklog s bl).1.backlog_subscriptions = s.backlog_subscriptions ∧
    (subscribeBacklog s bl).1.reconnect = s.reconnect ∧
    (subscribeBacklog s bl).1.reconnect_timeout_ms = s.reconnect_timeout_ms := by
  induction bl generalizing s with
  | nil => exact ⟨rfl, rfl, rfl, rfl⟩
  | cons kv rest ih =>
    obtain ⟨d, cbs⟩ := kv
    have ha := subscribeAllCbs_frozen cbs s d
    have hr := ih (subscribeAllCbs s d cbs).1
    simp only [subscribeBacklog]
    exact ⟨hr.1.trans ha.1, hr.2.1.trans ha.2.1, hr.2.2.1.trans ha.2.2.1,
      hr.2.2.2.trans ha.2.2.2⟩

theorem subscribeAllCbs_cbGet (cbs : List Nat) (s : StompState) (d t : String) :
    cbGet (subscribeAllCbs s d cbs).1.subscriptions t =
      if t = d then cbGet s.subscriptions t ++ cbs else cbGet s.subscriptions t := by
  induction cbs generalizing s with
  | nil =>
    by_cases h : t = d <;> simp [subscribeAllCbs, h]
  | cons c rest ih =>
    simp only [subscribeAllCbs]
    rw [ih, subscribeWire_subs, cbGet_setdefault]
    by_cases h : t = d
    · simp [h]
    · simp [h]

theorem subscribeBacklog_cbGet (bl : List (String × List Nat)) (s : StompState) (t : String)
    (hnd : keysND bl) :
    cbGet (subscribeBacklog s bl).1.subscriptions t =
      cbGet s.subscriptions t ++ cbGet bl t := by
  induction bl generalizing s with
  | nil => simp [subscribeBacklog, cbGet, alGet]
  | cons kv rest ih =>
    obtain ⟨d, cbs⟩ := kv
    simp only [keysND, List.map_cons, List.nodup_cons] at hnd
    simp only [subscribeBacklog]
    rw [ih (subscribeAllCbs s d cbs).1 (by exact hnd.2), subscribeAllCbs_cbGet,
      cbGet_cons]
    by_cases h : t = d
    · subst h
      have hrest : alGet rest t = none := (alGet_eq_none_iff rest t).mpr hnd.1
      simp [cbGet, hrest]
    · simp [h, Ne.symm h]

theorem subscribeWire_nodup (s : StompState) (d : String) (c : Nat)
    (h : keysND s.subscriptions) : keysND (subscribeWire s d c).1.subscriptions := by
  rw [subscribeWire_subs]
  exact nodup_keys_setdefault s.subscriptions d c h

theorem subscribeAllCbs_nodup (cbs : List Nat) (s : StompState) (d : String)
    (h : keysND s.subscriptions) : keysND (subscribeAllCbs s d cbs).1.subscriptions := by
  induction cbs generalizing s with
  | nil => exact h
  | cons c rest ih =>
    simp only [subscribeAllCbs]
    exact ih (subscribeWire s d c).1 (subscribeWire_nodup s d c h)

theorem subscribeBacklog_nodup (bl : List (String × List Nat)) (s : StompState)
    (h : keysND s.subscriptions) : keysND (subscribeBacklog s bl).1.subscriptions := by
  induction bl generalizing s with
  | nil => exact h
  | cons kv rest ih =>
    obtain ⟨d, cbs⟩ := kv
    simp only [subscribeBacklog]
    exact ih (subscribeAllCbs s d cbs).1 (subscribeAllCbs_nodup cbs s d h)

theorem connectedMessage_connected (s : StompState) :
    (connectedMessage s).1.connected = true := by
  unfold connectedMessage
  exact (subscribeBacklog_frozen s.backlog_subscriptions _).1

theorem connectedMessage_backlog (s : StompState) :
    (connectedMessage s).1.backlog_subscriptions = [] := rfl

theorem connectedMessage_reconnect (s : StompState) :
    (connectedMessage s).1.reconnect = s.reconnect := by
  unfold connectedMessage
  exact (subscribeBacklog_frozen s.backlog_subscriptions _).2.2.1

theorem connectedMessage_timeout (s : StompState) :
    (connectedMessage s).1.reconnect_timeout_ms = s.reconnect_timeout_ms := by
  unfold connectedMessage
  exact (subscribeBacklog_frozen s.backlog_subscriptions _).2.2.2

theorem connectedMessage_nodup (s : StompState) (h : keysND s.subscriptions) :
    keysND (connectedMessage s).1.subscriptions := by
  unfold connectedMessage
  exact subscribeBacklog_nodup s.backlog_subscriptions _ h

theorem connectedMessage_cbGet (s : StompState) (t : String)
    (h : keysND s.backlog_subscriptions) :
    cbGet (connectedMessage s).1.subscriptions t =
      cbGet s.subscriptions t ++ cbGet s.backlog_subscriptions t := by
  unfold connectedMessage
  exact subscribeBacklog_cbGet s.backlog_subscriptions _ t h

/-- The resulting state of `_on_close`, uniform over the two reconnect
branches (both leave the reconnect flag true). -/
theorem onClose_state (s : StompState) :
    (onClose s).1 =
      { connected := false
        backlog_subscriptions := alUpdate s.backlog_subscriptions s.subscriptions
        subscriptions := []
        next_sub_id := 0
        reconnect := true
        reconnect_timeout_ms := s.reconnect_timeout_ms } := by
  by_cases hr : s.reconnect = false
  · simp [onClose, hr]
  · have hr' : s.reconnect = true := by
      revert hr
      cases s.reconnect <;> simp
    simp [onClose, hr']

/-- The state reached by `_on_message` on a raw payload: heartbeats and
every non-CONNECTED frame leave the state untouched, a CONNECTED frame
applies `_connected_message` and clears the reconnect flag. -/
theorem step_raw_state (s : StompState) (msg : String) (parsed : Frame) :
    (step s (Event.raw msg parsed)).1 =
      if isHeartbeatMsg msg then s
      else if parsed.cmd = "CONNECTED" then
        { (connectedMessage s).1 with reconnect := false }
      else s := by
  unfold step onMessageRaw onFrame
  by_cases hb : isHeartbeatMsg msg
  · simp [hb]
  · simp only [hb, Bool.false_eq_true, if_false]
    by_cases h1 : parsed.cmd = "CONNECTED"
    · simp [h1]
    · simp only [h1, if_false]
      by_cases h2 : parsed.cmd = "MESSAGE"
      · simp only [h2, if_true]
        cases hd : alGet parsed.headers "destination" with
        | none => simp [hd]
        | some dest =>
          cases hs : alGet s.subscriptions dest with
          | none => simp [hd, hs]
          | some cbs => simp [hd, hs]
      · simp [h2]

/-- Every handler execution preserves the state invariant. -/
theorem inv_step (s : StompState) (e : Event) (h : Inv s) : Inv (step s e).1 := by
  obtain ⟨h1, h2, h3, h4⟩ := h
  cases e with
  | sub d c =>
    show Inv (subscribe s d c).1
    cases hc : s.connected with
    | false =>
      unfold subscribe
      rw [if_pos hc]
      refine ⟨fun _ => h1 hc, fun hcon => ?_, h3, nodup_keys_setdefault _ d c h4⟩
      have hcon' : s.connected = true := hcon
      rw [hc] at hcon'
      exact Bool.noConfusion hcon'
    | true =>
      unfold subscribe
      rw [if_neg (by rw [hc]; exact fun hem => Bool.noConfusion hem)]
      have hf := subscribeWire_frozen s d c
      refine ⟨fun hcon => ?_, fun _ => ?_, subscribeWire_nodup s d c h3, ?_⟩
      · rw [hf.1, hc] at hcon
        exact Bool.noConfusion hcon
      · rw [hf.2.1]
        exact h2 hc
      · rw [hf.2.1]
        exact h4
  | raw msg parsed =>
    rw [step_raw_state]
    by_cases hb : isHeartbeatMsg msg
    · simpa [hb] using ⟨h1, h2, h3, h4⟩
    · simp only [hb, Bool.false_eq_true, if_false]
      by_cases h5 : parsed.cmd = "CONNECTED"
      · simp only [h5, if_true]
        refine ⟨fun hcon => ?_, fun _ => ?_, ?_, ?_⟩
        · rw [show ({ (connectedMessage s).1 with reconnect := false } : StompState).connected
              = (connectedMessage s).1.connected from rfl, connectedMessage_connected] at hcon
          exact absurd hcon (by simp)
        · exact connectedMessage_backlog s
        · exact connectedMessage_nodup s h3
        · rw [show ({ (connectedMessage s).1 with reconnect := false } : StompState).backlog_subscriptions
              = (connectedMessage s).1.backlog_subscriptions from rfl, connectedMessage_backlog]
          simp [keysND]
      · simp only [h5, if_false]
        exact ⟨h1, h2, h3, h4⟩
  | openEv => exact ⟨h1, h2, h3, h4⟩
  | errorEv => exact ⟨h1, h2, h3, h4⟩
  | close =>
    show Inv (onClose s).1
    rw [onClose_state]
    cases hc : s.connected with
    | false =>
      have hsubs : s.subscriptions = [] := h1 hc
      refine ⟨fun _ => rfl, fun hcon => absurd hcon (by simp), by simp [keysND], ?_⟩
      rw [hsubs, alUpdate_nil_right]
      exact h4
    | true =>
      have hbl : s.backlog_subscriptions = [] := h2 hc
      refine ⟨fun _ => rfl, fun hcon => absurd hcon (by simp), by simp [keysND], ?_⟩
      rw [hbl, alUpdate_nil_left]
      exact h3
  | sendEv d b => exact ⟨h1, h2, h3, h4⟩

/-! ### Concrete-shape lemmas for the replay machinery -/

theorem alGet_append_self {α : Type} (pre : List (String × α)) (d : String) (l : α)
    (h : alGet pre d = none) : alGet (pre ++ [(d, l)]) d = some l := by
  rw [alGet_append_right pre _ d h]
  simp [alGet]

theorem alSetdefault_append_self (pre : List (String × List Nat)) (d : String)
    (l : List Nat) (c : Nat) (h : alGet pre d = none) :
    alSetdefaultAppend (pre ++ [(d, l)]) d c = pre ++ [(d, l ++ [c])] := by
  induction pre with
  | nil => simp [alSetdefaultAppend]
  | cons kv rest ih =>
    obtain ⟨k0, v0⟩ := kv
    by_cases h0 : k0 = d
    · subst h0
      simp [alGet] at h
    · simp only [alGet, if_neg h0] at h
      simp [alSetdefaultAppend, h0, ih h]

theorem subscribeAllCbs_extend (cbs : List Nat) (s : StompState) (pre : List (String × List Nat))
    (d : String) (l : List Nat) (hsubs : s.subscriptions = pre ++ [(d, l)])
    (hpre : alGet pre d = none) (hl : l ≠ []) :
    subscribeAllCbs s d cbs =
      ({ s with subscriptions := pre ++ [(d, l ++ cbs)] }, []) := by
  induction cbs generalizing s l with
  | nil =>
    simp only [subscribeAllCbs, List.append_nil]
    rw [show ({ s with subscriptions := pre ++ [(d, l)] } : StompState)
        = s from by rw [← hsubs]]
  | cons c rest ih =>
    have hget : alGet s.subscriptions d = some l := by
      rw [hsubs]
      exact alGet_append_self pre d l hpre
    have hlen : ¬(((alGet s.subscriptions d).getD []).length = 0) := by
      rw [hget]
      simpa using hl
    simp only [subscribeAllCbs]
    rw [show subscribeWire s d c
        = ({ s with subscriptions := alSetdefaultAppend s.subscriptions d c }, []) from by
      unfold subscribeWire
      rw [if_neg hlen]]
    rw [hsubs, alSetdefault_append_self pre d l c hpre]
    rw [ih _ (l ++ [c]) rfl (by simp)]
    simp

theorem subscribeAllCbs_fresh (s : StompState) (d : String) (cbs : List Nat)
    (hget : alGet s.subscriptions d = none) (hne : cbs ≠ []) :
    subscribeAllCbs s d cbs =
      ({ s with subscriptions := s.subscriptions ++ [(d, cbs)]
                next_sub_id := s.next_sub_id + 1 },
       [OutFrame.subscribeF d s.next_sub_id]) := by
  cases cbs with
  | nil => exact absurd rfl hne
  | cons c rest =>
    have hlen : ((alGet s.subscriptions d).getD []).length = 0 := by
      rw [hget]
      rfl
    simp only [subscribeAllCbs]
    rw [show subscribeWire s d c
        = ({ s with subscriptions := alSetdefaultAppend s.subscriptions d c
                    next_sub_id := s.next_sub_id + 1 },
           [OutFrame.subscribeF d s.next_sub_id]) from by
      unfold subscribeWire
      rw [if_pos hlen]]
    rw [alSetdefault_of_absent s.subscriptions d c hget]
    rw [subscribeAllCbs_extend rest _ s.subscriptions d [c] rfl hget (by simp)]
    simp

theorem subscribeSeq_single (cbs : List Nat) (dest : String) (l : List Nat) (s : StompState)
    (hc : s.connected = false) (hb : s.backlog_subscriptions = [(dest, l)]) :
    subscribeSeq s dest cbs = { s with backlog_subscriptions := [(dest, l ++ cbs)] } := by
  induction cbs generalizing s l with
  | nil =>
    simp only [subscribeSeq, List.append_nil]
    rw [show ({ s with backlog_subscriptions := [(dest, l)] } : StompState)
        = s from by rw [← hb]]
  | cons c rest ih =>
    simp only [subscribeSeq]
    rw [show (subscribe s dest c).1
        = { s with backlog_subscriptions := alSetdefaultAppend s.backlog_subscriptions dest c }
        from by
      unfold subscribe
      rw [if_pos hc]]
    rw [hb, show alSetdefaultAppend [(dest, l)] dest c = [(dest, l ++ [c])] from by
      simp [alSetdefaultAppend]]
    rw [ih (l ++ [c]) { s with backlog_subscriptions := [(dest, l ++ [c])] } hc rfl]
    simp

/-! ### Wire subscription id machinery -/

theorem subIds_append (a b : List OutFrame) : subIds (a ++ b) = subIds a ++ subIds b := by
  simp [subIds]

theorem range1_split (k₁ : Nat) (a k₂ : Nat) :
    List.range' a k₁ ++ List.range' (a + k₁) k₂ = List.range' a (k₁ + k₂) := by
  induction k₁ generalizing a with
  | zero => simp
  | succ n ih =>
    rw [show n + 1 + k₂ = n + k₂ + 1 from by omega]
    show (a :: List.range' (a + 1) n) ++ List.range' (a + (n + 1)) k₂
        = a :: List.range' (a + 1) (n + k₂)
    rw [List.cons_append, show a + (n + 1) = (a + 1) + n from by omega, ih (a + 1)]

theorem subscribeWire_ids (s : StompState) (d : String) (c : Nat) :
    ∃ k, subIds (subscribeWire s d c).2 = List.range' s.next_sub_id k ∧
      (subscribeWire s d c).1.next_sub_id = s.next_sub_id + k := by
  unfold subscribeWire
  split
  · exact ⟨1, rfl, rfl⟩
  · exact ⟨0, rfl, rfl⟩

theorem subscribeAllCbs_ids (cbs : List Nat) (s : StompState) (d : String) :
    ∃ k, subIds (subscribeAllCbs s d cbs).2 = List.range' s.next_sub_id k ∧
      (subscribeAllCbs s d cbs).1.next_sub_id = s.next_sub_id + k := by
  induction cbs generalizing s with
  | nil => exact ⟨0, rfl, rfl⟩
  | cons c rest ih =>
    obtain ⟨k1, h1, h2⟩ := subscribeWire_ids s d c
    obtain ⟨k2, h3, h4⟩ := ih (subscribeWire s d c).1
    refine ⟨k1 + k2, ?_, ?_⟩
    · simp only [subscribeAllCbs, subIds_append, h1, h3, h2]
      exact range1_split k1 s.next_sub_id k2
    · simp only [subscribeAllCbs, h4, h2]
      omega

theorem subscribeBacklog_ids (bl : List (String × List Nat)) (s : StompState) :
    ∃ k, subIds (subscribeBacklog s bl).2 = List.range' s.next_sub_id k ∧
      (subscribeBacklog s bl).1.next_sub_id = s.next_sub_id + k := by
  induction bl generalizing s with
  | nil => exact ⟨0, rfl, rfl⟩
  | cons kv rest ih =>
    obtain ⟨d, cbs⟩ := kv
    obtain ⟨k1, h1, h2⟩ := subscribeAllCbs_ids cbs s d
    obtain ⟨k2, h3, h4⟩ := ih (subscribeAllCbs s d cbs).1
    refine ⟨k1 + k2, ?_, ?_⟩
    · simp only [subscribeBacklog, subIds_append, h1, h3, h2]
      exact range1_split k1 s.next_sub_id k2
    · simp only [subscribeBacklog, h4, h2]
      omega

theorem connectedMessage_ids (s : StompState) :
    ∃ k, subIds (connectedMessage s).2 = List.range' s.next_sub_id k ∧
      (connectedMessage s).1.next_sub_id = s.next_sub_id + k := by
  unfold connectedMessage
  exact subscribeBacklog_ids s.backlog_subscriptions { s with connected := true }

theorem subscribe_ids (s : StompState) (d : String) (c : Nat) :
    ∃ k, subIds (subscribe s d c).2 = List.range' s.next_sub_id k ∧
      (subscribe s d c).1.next_sub_id = s.next_sub_id + k := by
  unfold subscribe
  split
  · exact ⟨0, rfl, rfl⟩
  · exact subscribeWire_ids s d c

/-- The frames written by `_on_message` on a raw payload: only a CONNECTED
frame produces output (the SUBSCRIBE replay). -/
theorem step_raw_frames (s : StompState) (msg : String) (parsed : Frame) :
    (step s (Event.raw msg parsed)).2.1 =
      if isHeartbeatMsg msg then []
      else if parsed.cmd = "CONNECTED" then (connectedMessage s).2
      else [] := by
  unfold step onMessageRaw onFrame
  by_cases hb : isHeartbeatMsg msg
  · simp [hb]
  · simp only [hb, Bool.false_eq_true, if_false]
    by_cases h1 : parsed.cmd = "CONNECTED"
    · simp [h1]
    · simp only [h1, if_false]
      by_cases h2 : parsed.cmd = "MESSAGE"
      · simp only [h2, if_true]
        cases hd : alGet parsed.headers "destination" with
        | none => simp [hd]
        | some dest =>
          cases hs : alGet s.subscriptions dest with
          | none => simp [hd, hs]
          | some cbs => simp [hd, hs]
      · simp [h2]

/-! ### Frame-handler shape lemmas -/

theorem onFrame_connected (s : StompState) (hs : List (String × String)) (b : String) :
    onFrame s ⟨"CONNECTED", hs, b⟩ =
      Except.ok ({ (connectedMessage s).1 with reconnect := false },
        (connectedMessage s).2, []) := by
  unfold onFrame
  rw [if_pos rfl]

theorem onFrame_message (s : StompState) (hdrs : List (String × String)) (body dest : String)
    (cbs : List Nat) (hd : alGet hdrs "destination" = some dest)
    (hsub : alGet s.subscriptions dest = some cbs) :
    onFrame s ⟨"MESSAGE", hdrs, body⟩ =
      Except.ok (s, [], cbs.map (fun c => (c, body))) := by
  unfold onFrame
  dsimp only
  rw [if_neg (show ¬("MESSAGE" : String) = "CONNECTED" by decide), if_pos rfl]
  simp [hd, hsub]

/-- The reconnect delay chosen by `_on_close`: zero for the first close,
the configured timeout afterwards. -/
theorem onClose_delay (s : StompState) :
    (onClose s).2 = if s.reconnect = false then 0 else s.reconnect_timeout_ms := by
  by_cases hr : s.reconnect = false
  · simp [onClose, hr]
  · have hr' : s.reconnect = true := by
      revert hr
      cases s.reconnect <;> simp
    simp [onClose, hr']

/-- Replaying a one-topic backlog from an empty live map sends exactly one
SUBSCRIBE frame and installs the whole callback list. -/
theorem connectedMessage_single (s : StompState) (dest : String) (cbs : List Nat)
    (hb1 : s.backlog_subscriptions = [(dest, cbs)]) (hsub : s.subscriptions = [])
    (hne : cbs ≠ []) :
    connectedMessage s =
      ({ s with connected := true
                backlog_subscriptions := []
                subscriptions := [(dest, cbs)]
                next_sub_id := s.next_sub_id + 1 },
       [OutFrame.subscribeF dest s.next_sub_id]) := by
  obtain ⟨c0, bl0, sub0, n0, r0, t0⟩ := s
  dsimp only at hb1 hsub
  subst hb1
  subst hsub
  unfold connectedMessage
  dsimp only
  simp only [subscribeBacklog]
  rw [subscribeAllCbs_fresh ⟨true, [(dest, cbs)], [], n0, r0, t0⟩ dest cbs rfl hne]
  simp

/-- Replaying a two-topic backlog from an empty live map sends exactly one
SUBSCRIBE frame per topic, with consecutive ids, and installs both callback
lists unchanged. -/
theorem subscribeBacklog_two (s : StompState) (A B : String) (la lb : List Nat)
    (hsub : s.subscriptions = []) (hAB : A ≠ B) (hla : la ≠ []) (hlb : lb ≠ []) :
    subscribeBacklog s [(A, la), (B, lb)] =
      ({ s with subscriptions := [(A, la), (B, lb)]
                next_sub_id := s.next_sub_id + 2 },
       [OutFrame.subscribeF A s.next_sub_id, OutFrame.subscribeF B (s.next_sub_id + 1)]) := by
  obtain ⟨c0, bl0, sub0, n0, r0, t0⟩ := s
  dsimp only at hsub
  subst hsub
  have h1 := subscribeAllCbs_fresh ⟨c0, bl0, [], n0, r0, t0⟩ A la rfl hla
  dsimp only [List.nil_append] at h1
  have h2 := subscribeAllCbs_fresh ⟨c0, bl0, [(A, la)], n0 + 1, r0, t0⟩ B lb
      (by simp [alGet, hAB]) hlb
  dsimp only [List.cons_append, List.nil_append] at h2
  simp only [subscribeBacklog, h1, h2]
  simp

theorem connectedMessage_two (s : StompState) (A B : String) (la lb : List Nat)
    (hb2 : s.backlog_subscriptions = [(A, la), (B, lb)]) (hsub : s.subscriptions = [])
    (hAB : A ≠ B) (hla : la ≠ []) (hlb : lb ≠ []) :
    connectedMessage s =
      ({ s with connected := true
                backlog_subscriptions := []
                subscriptions := [(A, la), (B, lb)]
                next_sub_id := s.next_sub_id + 2 },
       [OutFrame.subscribeF A s.next_sub_id, OutFrame.subscribeF B (s.next_sub_id + 1)]) := by
  obtain ⟨c0, bl0, sub0, n0, r0, t0⟩ := s
  dsimp only at hb2 hsub
  subst hb2
  subst hsub
  unfold connectedMessage
  dsimp only
  rw [subscribeBacklog_two ⟨true, [(A, la), (B, lb)], [], n0, r0, t0⟩ A B la lb rfl hAB hla hlb]

/-- A payload made of spaces and newlines only passes the heartbeat
strip-check. -/
theorem isHeartbeatMsg_of_space_newline (msg : String)
    (h : ∀ ch ∈ msg.data, ch = ' ' ∨ ch = '\n') : isHeartbeatMsg msg = true := by
  have hall : ∀ ch ∈ msg.data, (stripSet.contains ch) = true := by
    intro ch hch
    rcases h ch hch with h' | h' <;> subst h' <;> decide
  have hdrop : msg.data.dropWhile (fun c => stripSet.contains c) = [] :=
    List.dropWhile_eq_nil_iff.mpr hall
  have hlist : pyStripList stripSet msg.data = [] := by
    unfold pyStripList
    rw [hdrop]
    rfl
  unfold isHeartbeatMsg pyStrip
  rw [hlist]
  rfl

/-- Every reachable state satisfies the invariant. -/
theorem inv_reachable (s : StompState) (h : Reachable s) : Inv s := by
  induction h with
  | init timeout =>
    exact ⟨fun _ => rfl, fun hcon => rfl, by simp [keysND, initialState], by simp [keysND, initialState]⟩
  | next s e _ ih => exact inv_step s e ih

/-! ### Claim theorems -/

/-- Claim C1: for every sequence of `subscribe(topic, cb)` calls with the same
topic and N ≥ 1 distinct callbacks, all issued before the first transition to
Connected, processing the CONNECTED frame sends exactly one SUBSCRIBE frame
for that topic, and a MESSAGE frame subsequently delivered for that topic
invokes all N registered callbacks. -/
theorem c1_dedup_wire_subscribe (cfg : Nat) (dest body connBody : String)
    (connHeaders : List (String × String)) (cbs : List Nat)
    (hne : cbs ≠ []) (hnd : cbs.Nodup) :
    ∃ s2 frames,
      onFrame (subscribeSeq (initialState cfg) dest cbs)
          ⟨"CONNECTED", connHeaders, connBody⟩ = Except.ok (s2, frames, []) ∧
      countSubFor dest frames = 1 ∧
      onFrame s2 ⟨"MESSAGE", [("destination", dest)], body⟩ =
        Except.ok (s2, [], cbs.map (fun c => (c, body))) := by
  cases cbs with
  | nil => exact absurd rfl hne
  | cons c rest =>
    have hseq : subscribeSeq (initialState cfg) dest (c :: rest)
        = ⟨false, [(dest, c :: rest)], [], 0, false, cfg⟩ := by
      show subscribeSeq (subscribe (initialState cfg) dest c).1 dest rest = _
      rw [show (subscribe (initialState cfg) dest c).1
          = (⟨false, [(dest, [c])], [], 0, false, cfg⟩ : StompState) from rfl]
      rw [subscribeSeq_single rest dest [c] ⟨false, [(dest, [c])], [], 0, false, cfg⟩ rfl rfl]
      simp
    refine ⟨⟨true, [], [(dest, c :: rest)], 1, false, cfg⟩,
      [OutFrame.subscribeF dest 0], ?_, ?_, ?_⟩
    · rw [hseq, onFrame_connected,
        connectedMessage_single ⟨false, [(dest, c :: rest)], [], 0, false, cfg⟩ dest
          (c :: rest) rfl rfl (by simp)]
    · simp [countSubFor]
    · exact onFrame_message _ [("destination", dest)] body dest (c :: rest)
        (by simp [alGet]) (by simp [alGet])

/-- Claim C2: from a connected state with two wire-subscribed topics A and B
(each with at least one callback), a close followed by a reconnect (open) and
a CONNECTED frame sends exactly one SUBSCRIBE frame for A and one for B, and
the callback lists of A and B afterwards equal those before the close. -/
theorem c2_resubscribe_on_reconnect (cfg n : Nat) (r : Bool) (A B : String)
    (la lb : List Nat) (connHeaders : List (String × String)) (connBody : String)
    (hAB : A ≠ B) (hla : la ≠ []) (hlb : lb ≠ []) :
    ∃ s2 frames,
      onFrame (step (step (⟨true, [], [(A, la), (B, lb)], n, r, cfg⟩ : StompState)
            Event.close).1 Event.openEv).1
          ⟨"CONNECTED", connHeaders, connBody⟩ = Except.ok (s2, frames, []) ∧
      countSubFor A frames = 1 ∧ countSubFor B frames = 1 ∧
      alGet s2.subscriptions A = some la ∧ alGet s2.subscriptions B = some lb ∧
      alGet (⟨true, [], [(A, la), (B, lb)], n, r, cfg⟩ : StompState).subscriptions A = some la ∧
      alGet (⟨true, [], [(A, la), (B, lb)], n, r, cfg⟩ : StompState).subscriptions B = some lb := by
  have hclose : (step (⟨true, [], [(A, la), (B, lb)], n, r, cfg⟩ : StompState) Event.close).1
      = ⟨false, [(A, la), (B, lb)], [], 0, true, cfg⟩ := by
    show (onClose _).1 = _
    rw [onClose_state]
    dsimp only
    rw [alUpdate_nil_left]
  refine ⟨⟨true, [], [(A, la), (B, lb)], 2, false, cfg⟩,
    [OutFrame.subscribeF A 0, OutFrame.subscribeF B 1], ?_, ?_, ?_, ?_, ?_, ?_, ?_⟩
  · rw [hclose]
    rw [show (step (⟨false, [(A, la), (B, lb)], [], 0, true, cfg⟩ : StompState)
        Event.openEv).1 = ⟨false, [(A, la), (B, lb)], [], 0, true, cfg⟩ from rfl]
    rw [onFrame_connected,
      connectedMessage_two ⟨false, [(A, la), (B, lb)], [], 0, true, cfg⟩ A B la lb
        rfl rfl hAB hla hlb]
  · simp [countSubFor, Ne.symm hAB]
  · simp [countSubFor, hAB]
  · simp [alGet]
  · simp [alGet, hAB]
  · simp [alGet]
  · simp [alGet, hAB]

/-- Claim C3 (counterexample): `send` invoked while the connection state is
not Connected still produces an outbound SEND frame — the source performs no
connection-state check. -/
theorem c3_counterexample_send_while_disconnected :
    (initialState 60000).connected = false ∧
    (send (initialState 60000) "/topic" "body").2 = [OutFrame.sendF "/topic" "body"] ∧
    (send (initialState 60000) "/topic" "body").2 ≠ [] :=
  ⟨rfl, rfl, by decide⟩

/-- Claim C3 (amended): for every destination and body and in every
connection state, `send(destination, body)` hands exactly one SEND frame
carrying the given destination and body to the underlying websocket, without
consulting the connection state. -/
theorem c3_send_unconditional (s : StompState) (dest body : String) :
    (step s (Event.sendEv dest body)).2.1 = [OutFrame.sendF dest body] ∧
    (step s (Event.sendEv dest body)).1 = s ∧
    send s dest body = (s, [OutFrame.sendF dest body]) :=
  ⟨rfl, rfl, rfl⟩

/-- Claim C4 (code evaluated at the failing input): with callbacks `[0, 1]`
registered in that order and callback 0 raising, the unprotected dispatch
loop of `_on_message` aborts after callback 0 — callback 1 is never invoked
for that message, contradicting the required per-callback isolation. -/
theorem c4_dispatch_abort_on_raise :
    dispatchLoop (fun c _ => c == 0) [0, 1] "m" = ([0], true) ∧
    1 ∉ (dispatchLoop (fun c _ => c == 0) [0, 1] "m").1 :=
  ⟨rfl, by decide⟩

/-- Claim C5: the first close (reconnect flag unset) reconnects with zero
delay and sets the flag; every consecutive later close (flag set) waits the
configured backoff; and processing a CONNECTED frame resets the flag. -/
theorem c5_reconnect_backoff_policy (s : StompState) :
    (s.reconnect = false → (onClose s).2 = 0 ∧ (onClose s).1.reconnect = true) ∧
    (s.reconnect = true →
      (onClose s).2 = s.reconnect_timeout_ms ∧ (onClose s).1.reconnect = true) ∧
    (∀ hs b, ∃ s' fr, onFrame s ⟨"CONNECTED", hs, b⟩ = Except.ok (s', fr, []) ∧
      s'.reconnect = false) := by
  refine ⟨fun h => ⟨?_, ?_⟩, fun h => ⟨?_, ?_⟩, fun hs b => ?_⟩
  · rw [onClose_delay, if_pos h]
  · rw [onClose_state]
  · rw [onClose_delay, if_neg (by rw [h]; exact fun hc => Bool.noConfusion hc)]
  · rw [onClose_state]
  · exact ⟨{ (connectedMessage s).1 with reconnect := false }, (connectedMessage s).2,
      onFrame_connected s hs b, rfl⟩

/-- Claim C6: in every reachable state each registry map has at most one
entry per topic, and the map of active wire subscriptions is empty whenever
the transport is not connected (the backlog likewise empty while
connected). -/
theorem c6_registry_invariant (s : StompState) (hr : Reachable s) :
    ((s.subscriptions.map Prod.fst).Nodup ∧
      (s.backlog_subscriptions.map Prod.fst).Nodup) ∧
    (s.connected = false → s.subscriptions = []) ∧
    (s.connected = true → s.backlog_subscriptions = []) := by
  obtain ⟨h1, h2, h3, h4⟩ := inv_reachable s hr
  exact ⟨⟨h3, h4⟩, h1, h2⟩

/-- Claim C7 (counterexample): the payload `"\t"` consists only of
whitespace, yet it fails the heartbeat strip-check (which strips only spaces
and newlines) and is handed to the frame parser. -/
theorem c7_counterexample_tab_payload :
    ("\t" : String) ≠ "" ∧ (∀ ch ∈ ("\t" : String).data, ch.isWhitespace = true) ∧
    isHeartbeatMsg "\t" = false ∧ invokesFrameParser "\t" = true := by
  exact ⟨by decide, by decide, rfl, rfl⟩

/-- Claim C7 (amended): every payload that is empty or consists only of
space and newline characters is treated as a heartbeat in any state: it is
not handed to the frame parser, no error is raised, no callback is invoked
and the state is unchanged. -/
theorem c7_heartbeat_space_newline (s : StompState) (msg : String) (parsed : Frame)
    (h : ∀ ch ∈ msg.data, ch = ' ' ∨ ch = '\n') :
    isHeartbeatMsg msg = true ∧ invokesFrameParser msg = false ∧
    onMessageRaw s msg parsed = Except.ok (s, [], []) := by
  have hb := isHeartbeatMsg_of_space_newline msg h
  refine ⟨hb, ?_, ?_⟩
  · unfold invokesFrameParser
    rw [hb]
    rfl
  · unfold onMessageRaw
    rw [if_pos hb]

/-- Claim C8: the id counter starts at 0, every handler execution other than
a close emits SUBSCRIBE frames with consecutive fresh ids continuing the
counter (advancing it by the number emitted), and a close resets the counter
to 0 while emitting no SUBSCRIBE frame. -/
theorem c8_fresh_monotone_sub_ids (s : StompState) (e : Event) (cfg : Nat) :
    (initialState cfg).next_sub_id = 0 ∧
    (e = Event.close → (step s e).1.next_sub_id = 0 ∧ subIds (step s e).2.1 = []) ∧
    (e ≠ Event.close →
      ∃ k, subIds (step s e).2.1 = List.range' s.next_sub_id k ∧
        (step s e).1.next_sub_id = s.next_sub_id + k) := by
  refine ⟨rfl, fun he => ?_, fun he => ?_⟩
  · subst he
    constructor
    · show (onClose s).1.next_sub_id = 0
      rw [onClose_state]
    · rfl
  · cases e with
    | close => exact absurd rfl he
    | sub d c => exact subscribe_ids s d c
    | raw msg parsed =>
      by_cases hb : isHeartbeatMsg msg = true
      · refine ⟨0, ?_, ?_⟩
        · rw [step_raw_frames, if_pos hb]
          rfl
        · rw [step_raw_state, if_pos hb]
          simp
      · by_cases hcm : parsed.cmd = "CONNECTED"
        · obtain ⟨k, hk1, hk2⟩ := connectedMessage_ids s
          refine ⟨k, ?_, ?_⟩
          · rw [step_raw_frames, if_neg hb, if_pos hcm]
            exact hk1
          · rw [step_raw_state, if_neg hb, if_pos hcm]
            exact hk2
        · refine ⟨0, ?_, ?_⟩
          · rw [step_raw_frames, if_neg hb, if_neg hcm]
            rfl
          · rw [step_raw_state, if_neg hb, if_neg hcm]
            simp
    | openEv => exact ⟨0, rfl, rfl⟩
    | errorEv => exact ⟨0, rfl, rfl⟩
    | sendEv d b => exact ⟨0, rfl, rfl⟩

/-- Claim C9: across every handler execution from a reachable state, the
callback list registered for any topic is only extended (the old list is a
prefix of the new one), so a subscription once created is never destroyed
and no callback is ever lost. -/
theorem c9_callbacks_only_grow (s : StompState) (hr : Reachable s) (e : Event) (t : String) :
    (∃ more, callbacksOf (step s e).1 t = callbacksOf s t ++ more) ∧
    (callbacksOf s t ≠ [] → callbacksOf (step s e).1 t ≠ []) := by
  obtain ⟨h1, h2, h3, h4⟩ := inv_reachable s hr
  have main : ∃ more, callbacksOf (step s e).1 t = callbacksOf s t ++ more := by
    cases e with
    | sub d c =>
      show ∃ more, callbacksOf (subscribe s d c).1 t = callbacksOf s t ++ more
      cases hc : s.connected with
      | false =>
        have hsubs := h1 hc
        unfold subscribe
        rw [if_pos hc]
        refine ⟨if t = d then [c] else [], ?_⟩
        show cbGet (alSetdefaultAppend s.backlog_subscriptions d c) t ++ cbGet s.subscriptions t
            = (cbGet s.backlog_subscriptions t ++ cbGet s.subscriptions t) ++ _
        rw [cbGet_setdefault, hsubs]
        by_cases ht : t = d
        · simp [ht, cbGet, alGet]
        · simp [ht, cbGet, alGet]
      | true =>
        have hf := subscribeWire_frozen s d c
        unfold subscribe
        rw [if_neg (by rw [hc]; exact fun hx => Bool.noConfusion hx)]
        refine ⟨if t = d then [c] else [], ?_⟩
        show cbGet (subscribeWire s d c).1.backlog_subscriptions t
            ++ cbGet (subscribeWire s d c).1.subscriptions t
            = (cbGet s.backlog_subscriptions t ++ cbGet s.subscriptions t) ++ _
        rw [hf.2.1, subscribeWire_subs, cbGet_setdefault]
        by_cases ht : t = d
        · simp [ht, List.append_assoc]
        · simp [ht]
    | raw msg parsed =>
      rw [step_raw_state]
      by_cases hb : isHeartbeatMsg msg = true
      · rw [if_pos hb]
        exact ⟨[], by simp⟩
      · rw [if_neg hb]
        by_cases hcm : parsed.cmd = "CONNECTED"
        · rw [if_pos hcm]
          refine ⟨[], ?_⟩
          dsimp only [callbacksOf]
          rw [connectedMessage_backlog, connectedMessage_cbGet s t h4]
          cases hcon : s.connected with
          | false =>
            rw [h1 hcon]
            simp [cbGet, alGet]
          | true =>
            rw [h2 hcon]
            simp [cbGet, alGet]
        · rw [if_neg hcm]
          exact ⟨[], by simp⟩
    | openEv => exact ⟨[], by simp [step]⟩
    | errorEv => exact ⟨[], by simp [step]⟩
    | sendEv d b => exact ⟨[], by simp [step, send]⟩
    | close =>
      show ∃ more, callbacksOf (onClose s).1 t = callbacksOf s t ++ more
      rw [onClose_state]
      refine ⟨[], ?_⟩
      show cbGet (alUpdate s.backlog_subscriptions s.subscriptions) t ++ cbGet [] t
          = (cbGet s.backlog_subscriptions t ++ cbGet s.subscriptions t) ++ []
      cases hcon : s.connected with
      | false =>
        rw [h1 hcon, alUpdate_nil_right]
        simp [cbGet, alGet]
      | true =>
        rw [h2 hcon, alUpdate_nil_left]
        simp [cbGet, alGet]
  refine ⟨main, fun hne hnil => ?_⟩
  obtain ⟨more, hm⟩ := main
  rw [hm] at hnil
  exact hne (List.append_eq_nil.mp hnil).1

/-- Claim C10: a MESSAGE frame without a `destination` header makes the
inbound handler raise a `KeyError` at the header lookup — it is not treated
like an unknown destination (which returns without raising). -/
theorem c10_missing_destination_keyerror (s : StompState) (f : Frame)
    (hcmd : f.cmd = "MESSAGE") (hdr : alGet f.headers "destination" = none) :
    onFrame s f = Except.error (MsgError.keyError "destination") := by
  have hne : ¬(f.cmd = "CONNECTED") := by
    rw [hcmd]
    decide
  unfold onFrame
  rw [if_neg hne, if_pos hcmd]
  simp [hdr]

/-! ### Witnesses: the claim theorems applied at concrete inputs -/

/-- Witness for C1 at two distinct callbacks on one topic. -/
theorem c1_dedup_wire_subscribe_witness :
    (([1, 2] : List Nat) ≠ [] ∧ ([1, 2] : List Nat).Nodup) ∧
    (∃ s2 frames,
      onFrame (subscribeSeq (initialState 60000) "/t" [1, 2]) ⟨"CONNECTED", [], ""⟩
        = Except.ok (s2, frames, []) ∧
      countSubFor "/t" frames = 1 ∧
      onFrame s2 ⟨"MESSAGE", [("destination", "/t")], "b"⟩
        = Except.ok (s2, [], ([1, 2] : List Nat).map (fun c => (c, "b")))) :=
  ⟨⟨by decide, by decide⟩,
    c1_dedup_wire_subscribe 60000 "/t" "b" "" [] [1, 2] (by decide) (by decide)⟩

/-- Witness for C2 at two wire-subscribed topics. -/
theorem c2_resubscribe_on_reconnect_witness :
    ("/a" : String) ≠ "/b" ∧
    (∃ s2 frames,
      onFrame (step (step (⟨true, [], [("/a", [1]), ("/b", [2])], 7, false, 9⟩ : StompState)
            Event.close).1 Event.openEv).1 ⟨"CONNECTED", [], ""⟩
        = Except.ok (s2, frames, []) ∧
      countSubFor "/a" frames = 1 ∧ countSubFor "/b" frames = 1 ∧
      alGet s2.subscriptions "/a" = some [1] ∧ alGet s2.subscriptions "/b" = some [2] ∧
      alGet (⟨true, [], [("/a", [1]), ("/b", [2])], 7, false, 9⟩ : StompState).subscriptions "/a"
        = some [1] ∧
      alGet (⟨true, [], [("/a", [1]), ("/b", [2])], 7, false, 9⟩ : StompState).subscriptions "/b"
        = some [2]) :=
  ⟨by decide,
    c2_resubscribe_on_reconnect 9 7 false "/a" "/b" [1] [2] [] ""
      (by decide) (by decide) (by decide)⟩

/-- Witness for C5 at a first close, a consecutive second close, and a
CONNECTED frame. -/
theorem c5_reconnect_backoff_policy_witness :
    ((onClose (initialState 60000)).2 = 0 ∧
      (onClose (initialState 60000)).1.reconnect = true) ∧
    ((onClose (onClose (initialState 60000)).1).2 = 60000 ∧
      (onClose (onClose (initialState 60000)).1).1.reconnect = true) ∧
    (∃ s' fr, onFrame (initialState 60000) ⟨"CONNECTED", [], ""⟩ = Except.ok (s', fr, []) ∧
      s'.reconnect = false) :=
  ⟨(c5_reconnect_backoff_policy (initialState 60000)).1 rfl,
   (c5_reconnect_backoff_policy (onClose (initialState 60000)).1).2.1 rfl,
   (c5_reconnect_backoff_policy (initialState 60000)).2.2 [] ""⟩

/-- Witness for C6 at the freshly constructed state. -/
theorem c6_registry_invariant_witness :
    (((initialState 60000).subscriptions.map Prod.fst).Nodup ∧
      ((initialState 60000).backlog_subscriptions.map Prod.fst).Nodup) ∧
    ((initialState 60000).connected = false → (initialState 60000).subscriptions = []) ∧
    ((initialState 60000).connected = true → (initialState 60000).backlog_subscriptions = []) :=
  c6_registry_invariant (initialState 60000) (Reachable.init 60000)

/-- Witness for C7 (amended) at the payload of one space and one newline. -/
theorem c7_heartbeat_space_newline_witness :
    isHeartbeatMsg " \n" = true ∧ invokesFrameParser " \n" = false ∧
    onMessageRaw (initialState 3) " \n" ⟨"", [], ""⟩ = Except.ok (initialState 3, [], []) :=
  c7_heartbeat_space_newline (initialState 3) " \n" ⟨"", [], ""⟩ (by decide)

/-- Witness for C8 at a close event and at a subscribe event. -/
theorem c8_fresh_monotone_sub_ids_witness :
    ((step (initialState 4) Event.close).1.next_sub_id = 0 ∧
      subIds (step (initialState 4) Event.close).2.1 = []) ∧
    (∃ k, subIds (step (initialState 4) (Event.sub "/t" 1)).2.1
        = List.range' (initialState 4).next_sub_id k ∧
      (step (initialState 4) (Event.sub "/t" 1)).1.next_sub_id
        = (initialState 4).next_sub_id + k) :=
  ⟨(c8_fresh_monotone_sub_ids (initialState 4) Event.close 4).2.1 rfl,
   (c8_fresh_monotone_sub_ids (initialState 4) (Event.sub "/t" 1) 4).2.2 (by decide)⟩

/-- Witness for C9 at a subscribe event from the initial state. -/
theorem c9_callbacks_only_grow_witness :
    (∃ more, callbacksOf (step (initialState 2) (Event.sub "/t" 5)).1 "/t"
        = callbacksOf (initialState 2) "/t" ++ more) ∧
    (callbacksOf (initialState 2) "/t" ≠ [] →
      callbacksOf (step (initialState 2) (Event.sub "/t" 5)).1 "/t" ≠ []) :=
  c9_callbacks_only_grow (initialState 2) (Reachable.init 2) (Event.sub "/t" 5) "/t"

/-- Witness for C10 at a MESSAGE frame with no headers. -/
theorem c10_missing_destination_keyerror_witness :
    onFrame (initialState 1) ⟨"MESSAGE", [], "b"⟩
      = Except.error (MsgError.keyError "destination") :=
  c10_missing_destination_keyerror (initialState 1) ⟨"MESSAGE", [], "b"⟩ rfl rfl

end Stomp
